import Mathlib

/-!
Verification of the Accounts Snapshot Coordinator
(`core/src/accounts_hash_verifier.rs` of the `agave` repository).

The Rust service is embedded shallowly:

* machine integers (slots, lamports, hashes — all `u64`) become `Nat`; the
  service
  performs no arithmetic on them, only comparisons and equality tests, so
  no modular reduction is required;
* the accounts database (`solana_accounts_db`, an external collaborator of
  the spec, §1) is a record of function fields mirroring exactly the
  methods the service invokes;
* side effects on the database and on the pending-snapshot-packages
  container are recorded as an explicit event trace, so that claims about
  which calls happen, how many times, and in which order are statable;
* Rust panics (`panic!`, `assert!`, `unreachable!`, `Option::unwrap`,
  `Result::expect`, `assert_eq!`) become the `panicked` constructor of an
  outcome type; the `io::Result` return type keeps an `err` constructor
  even though no code path constructs one;
* logging, metrics (`datapoint_info!`) and timing (`measure_us!`) are
  dropped: they affect no value or state that the code reads.
-/

namespace Agave

/-- The payload of `std::io::Error`; never constructed by this service. -/
abbrev IoError := String

/-- Mirrors `solana_runtime::snapshot_package::SnapshotKind`. -/
inductive SnapshotKind where
  | fullSnapshot : SnapshotKind
  | incrementalSnapshot (base_slot : Nat) : SnapshotKind
  deriving DecidableEq, Repr

/-- Mirrors `solana_runtime::snapshot_package::AccountsPackageKind`. -/
inductive AccountsPackageKind where
  | epochAccountsHash : AccountsPackageKind
  | snapshot (kind : SnapshotKind) : AccountsPackageKind
  deriving DecidableEq, Repr

/-- Mirrors `solana_runtime::snapshot_package::AccountsHashAlgorithm`. -/
inductive AccountsHashAlgorithm where
  | merkle : AccountsHashAlgorithm
  | lattice : AccountsHashAlgorithm
  deriving DecidableEq, Repr

/-- A storage handle (`AccountStorageEntry`): the coordinator only reads its
owning slot (`storage.slot()`); `ident` distinguishes storages of one slot. -/
structure Storage where
  slot : Nat
  ident : Nat
  deriving DecidableEq, Repr

/-- Mirrors `CalcAccountsHashConfig` as constructed in this file: the
`epoch_schedule` reference is omitted because the database is abstract and
the claims constrain only the fields set here. `ancestors` is always `none`. -/
structure CalcAccountsHashConfig where
  use_bg_thread_pool : Bool
  ancestors : Option Unit
  epoch : Nat
  store_detailed_debug_info_on_failure : Bool
  deriving DecidableEq, Repr

/-- The accounts database, an external collaborator: one function field per
method the coordinator invokes, plus the two inventory lists the diagnostic
panic dump prints.  `update_accounts_hash` and
`update_incremental_accounts_hash` return `(hash, lamports)` for the given
config, (sorted) storages and slot; the `HashStats` timing argument is
dropped as pure metrics. -/
structure AccountsDb where
  update_accounts_hash :
    CalcAccountsHashConfig → List Storage → Nat → Nat × Nat
  calculate_accounts_hash :
    CalcAccountsHashConfig → List Storage → Nat × Nat
  update_incremental_accounts_hash :
    CalcAccountsHashConfig → List Storage → Nat → Nat × Nat
  get_accounts_hash : Nat → Option (Nat × Nat)
  get_accounts_hashes : List (Nat × Nat × Nat)
  get_incremental_accounts_hashes : List (Nat × Nat × Nat)

/-- Mirrors `AccountsPackage` (the fields this service reads).  The Rust
`accounts.accounts_db` handle is inlined as `accounts_db`; `enqueued` is a
wall-clock timestamp used only for metrics and is dropped. -/
structure AccountsPackage where
  package_kind : AccountsPackageKind
  slot : Nat
  block_height : Nat
  snapshot_storages : List Storage
  expected_capitalization : Nat
  accounts_hash_for_testing : Option Nat
  accounts_db : AccountsDb
  epoch_schedule : Nat → Nat
  accounts_hash_algorithm : AccountsHashAlgorithm

/-- Mirrors `SnapshotConfig` with the two archive directories replaced by the
inventories that `snapshot_utils::get_full_snapshot_archives` /
`get_bank_snapshots` would read from them (opaque `Nat` identifiers). -/
structure SnapshotConfig where
  should_generate_snapshots : Bool
  full_snapshot_archives_dir : List Nat
  bank_snapshots_dir : List Nat
  deriving DecidableEq, Repr

/-- Mirrors `snapshot_utils::get_full_snapshot_archives`, reading the modelled
directory contents. -/
def get_full_snapshot_archives (config : SnapshotConfig) : List Nat :=
  config.full_snapshot_archives_dir

/-- Mirrors `snapshot_utils::get_bank_snapshots`, reading the modelled
directory contents. -/
def get_bank_snapshots (config : SnapshotConfig) : List Nat :=
  config.bank_snapshots_dir

/-- Mirrors `solana_accounts_db::accounts_hash::AccountsHashKind`:
the `.into()` conversions of an `AccountsHash` / `IncrementalAccountsHash`. -/
inductive AccountsHashKind where
  | full (hash : Nat) : AccountsHashKind
  | incremental (hash : Nat) : AccountsHashKind
  deriving DecidableEq, Repr

/-- Mirrors `MerkleOrLatticeAccountsHash`. -/
inductive MerkleOrLatticeAccountsHash where
  | merkle (kind : AccountsHashKind) : MerkleOrLatticeAccountsHash
  | lattice : MerkleOrLatticeAccountsHash
  deriving DecidableEq, Repr

/-- Mirrors `serde_snapshot::BankIncrementalSnapshotPersistence`. -/
structure BankIncrementalSnapshotPersistence where
  full_slot : Nat
  full_hash : Nat
  full_capitalization : Nat
  incremental_hash : Nat
  incremental_capitalization : Nat
  deriving DecidableEq, Repr

/-- Mirrors `SnapshotPackage::new(accounts_package, hash, persistence)`:
the fields of the accounts package that survive into the snapshot package
and matter to the claims, plus the two hashing results. -/
structure SnapshotPackage where
  package_kind : AccountsPackageKind
  slot : Nat
  merkle_or_lattice_accounts_hash : MerkleOrLatticeAccountsHash
  bank_incremental_snapshot_persistence : Option BankIncrementalSnapshotPersistence
  deriving DecidableEq, Repr

/-- One observable side effect of processing a package: a call into the
accounts database, or a push into `PendingSnapshotPackages`. -/
inductive Event where
  | dbUpdateAccountsHash
      (config : CalcAccountsHashConfig) (storages : List Storage) (slot : Nat) : Event
  | dbCalculateAccountsHash
      (config : CalcAccountsHashConfig) (storages : List Storage) : Event
  | dbUpdateIncrementalAccountsHash
      (config : CalcAccountsHashConfig) (storages : List Storage) (slot : Nat) : Event
  | dbGetAccountsHash (slot : Nat) : Event
  | dbPurgeOldAccountsHashes (slot : Nat) : Event
  | pushPendingSnapshotPackage (package : SnapshotPackage) : Event
  deriving DecidableEq, Repr

/-- Whether an event is the Curator's `purge_old_accounts_hashes` call. -/
def Event.isPurge : Event → Bool
  | .dbPurgeOldAccountsHashes _ => true
  | _ => false

/-- Whether an event is the handoff's push into `PendingSnapshotPackages`. -/
def Event.isPush : Event → Bool
  | .pushPendingSnapshotPackage _ => true
  | _ => false

/-- The structured content of the diagnostic dump printed by the
missing-base-hash panic: the package's slot (standing for the `{package:?}`
line), the retained full and incremental hashes, and the on-disk archive and
bank-snapshot inventories. -/
structure IncrementalBasePanicDump where
  package_slot : Nat
  accounts_hashes : List (Nat × Nat × Nat)
  incremental_accounts_hashes : List (Nat × Nat × Nat)
  full_snapshot_archives : List Nat
  bank_snapshots : List Nat
  deriving DecidableEq, Repr

/-- The reasons this service can panic, one constructor per Rust panic site. -/
inductive PanicReason where
  | eahAssertion (count : Nat) : PanicReason
  | unreachableBranch : PanicReason
  | reenqueueFailed : PanicReason
  | eahRemoved : PanicReason
  | missingBaseAccountsHash (dump : IncrementalBasePanicDump) : PanicReason
  | capitalizationMismatch (expected calculated recalculated : Nat) : PanicReason
  | testHashMismatch (expected calculated : Nat) : PanicReason
  deriving DecidableEq, Repr

/-- Outcome of Rust code whose only failure mode is a panic. -/
inductive PanicOr (α : Type) where
  | panicked (reason : PanicReason) : PanicOr α
  | ok (value : α) : PanicOr α
  deriving DecidableEq, Repr

/-- Outcome of Rust code returning `io::Result` (which can additionally panic). -/
inductive RunResult (α : Type) where
  | panicked (reason : PanicReason) : RunResult α
  | err (e : IoError) : RunResult α
  | ok (value : α) : RunResult α
  deriving DecidableEq, Repr

/-- Whether a run result is an `Err`. -/
def RunResult.isErr {α : Type} : RunResult α → Bool
  | .err _ => true
  | _ => false

/-- Insert a storage into a list kept ascending by slot. -/
def insertStorageBySlot (s : Storage) : List Storage → List Storage
  | [] => [s]
  | t :: ts => if s.slot ≤ t.slot then s :: t :: ts else t :: insertStorageBySlot s ts

/-- Mirrors `SortedStorages::new` / `new_with_slots`: the storages ordered
ascending by slot (insertion sort; the concrete sorting algorithm is
irrelevant to the claims). -/
def sortStoragesBySlot : List Storage → List Storage
  | [] => []
  | s :: ss => insertStorageBySlot s (sortStoragesBySlot ss)

/-- Mirrors `AccountsHashVerifier::_calculate_full_accounts_hash`, returning
the trace of database calls it makes together with its outcome. -/
def _calculate_full_accounts_hash (accounts_package : AccountsPackage) :
    List Event × PanicOr (Nat × Nat) :=
  let sorted_storages := sortStoragesBySlot accounts_package.snapshot_storages
  let epoch := accounts_package.epoch_schedule accounts_package.slot
  let calculate_accounts_hash_config : CalcAccountsHashConfig :=
    ⟨true, none, epoch, false⟩
  let slot := accounts_package.slot
  let (accounts_hash, lamports) :=
    accounts_package.accounts_db.update_accounts_hash
      calculate_accounts_hash_config sorted_storages slot
  let events0 := [Event.dbUpdateAccountsHash calculate_accounts_hash_config sorted_storages slot]
  if accounts_package.expected_capitalization ≠ lamports then
    let retry_config : CalcAccountsHashConfig := ⟨false, none, epoch, true⟩
    let second_accounts_hash :=
      accounts_package.accounts_db.calculate_accounts_hash retry_config sorted_storages
    (events0 ++ [Event.dbCalculateAccountsHash retry_config sorted_storages],
     .panicked (.capitalizationMismatch
        accounts_package.expected_capitalization lamports second_accounts_hash.2))
  else
    match accounts_package.accounts_hash_for_testing with
    | some expected_hash =>
        if expected_hash = accounts_hash then (events0, .ok (accounts_hash, lamports))
        else (events0, .panicked (.testHashMismatch expected_hash accounts_hash))
    | none => (events0, .ok (accounts_hash, lamports))

/-- Mirrors `AccountsHashVerifier::_calculate_incremental_accounts_hash`:
hashes only the storages with slot strictly greater than `base_slot`;
this helper has no failure path of its own. -/
def _calculate_incremental_accounts_hash
    (accounts_package : AccountsPackage) (base_slot : Nat) :
    List Event × (Nat × Nat) :=
  let incremental_storages :=
    accounts_package.snapshot_storages.filter (fun storage => decide (base_slot < storage.slot))
  let sorted_storages := sortStoragesBySlot incremental_storages
  let epoch := accounts_package.epoch_schedule accounts_package.slot
  let calculate_accounts_hash_config : CalcAccountsHashConfig :=
    ⟨true, none, epoch, false⟩
  let result :=
    accounts_package.accounts_db.update_incremental_accounts_hash
      calculate_accounts_hash_config sorted_storages accounts_package.slot
  ([Event.dbUpdateIncrementalAccountsHash
      calculate_accounts_hash_config sorted_storages accounts_package.slot],
   result)

/-- Mirrors `AccountsHashVerifier::calculate_and_verify_accounts_hash`.
The two Rust matches (algorithm dispatch, then `CalcAccountsHashKind`
derivation plus the re-match on `package_kind` inside the incremental arm)
are folded into one nested match with identical behaviour. -/
def calculate_and_verify_accounts_hash
    (accounts_package : AccountsPackage) (snapshot_config : SnapshotConfig) :
    List Event ×
      RunResult (MerkleOrLatticeAccountsHash × Option BankIncrementalSnapshotPersistence) :=
  match accounts_package.accounts_hash_algorithm with
  | .lattice => ([], .ok (.lattice, none))
  | .merkle =>
    match accounts_package.package_kind with
    | .epochAccountsHash => ([], .panicked .eahRemoved)
    | .snapshot .fullSnapshot =>
        let (events, outcome) := _calculate_full_accounts_hash accounts_package
        match outcome with
        | .panicked reason => (events, .panicked reason)
        | .ok (accounts_hash, _capitalization) =>
            (events, .ok (.merkle (.full accounts_hash), none))
    | .snapshot (.incrementalSnapshot base_slot) =>
        match accounts_package.accounts_db.get_accounts_hash base_slot with
        | none =>
          ([Event.dbGetAccountsHash base_slot],
           .panicked (.missingBaseAccountsHash
             ⟨accounts_package.slot,
              accounts_package.accounts_db.get_accounts_hashes,
              accounts_package.accounts_db.get_incremental_accounts_hashes,
              get_full_snapshot_archives snapshot_config,
              get_bank_snapshots snapshot_config⟩))
        | some (base_accounts_hash, base_capitalization) =>
          let (events, incremental_result) :=
            _calculate_incremental_accounts_hash accounts_package base_slot
          let bank_incremental_snapshot_persistence : BankIncrementalSnapshotPersistence :=
            ⟨base_slot, base_accounts_hash, base_capitalization,
             incremental_result.1, incremental_result.2⟩
          (Event.dbGetAccountsHash base_slot :: events,
           .ok (.merkle (.incremental incremental_result.1),
                some bank_incremental_snapshot_persistence))

/-- Mirrors `AccountsHashVerifier::purge_old_accounts_hashes` (the Curator):
returns its side effects as an event list. -/
def purge_old_accounts_hashes
    (accounts_package : AccountsPackage) (snapshot_config : SnapshotConfig) :
    List Event :=
  let should_purge :=
    match snapshot_config.should_generate_snapshots, accounts_package.package_kind with
    | false, _ => true
    | true, .snapshot .fullSnapshot => true
    | true, _ => false
  if should_purge then [Event.dbPurgeOldAccountsHashes accounts_package.slot] else []

/-- Mirrors `AccountsHashVerifier::submit_for_packaging`: pushes a
`SnapshotPackage` into the shared `PendingSnapshotPackages` container
(modelled as a list it appends to) unless the package kind is not a
`Snapshot(_)`. -/
def submit_for_packaging
    (accounts_package : AccountsPackage)
    (pending_snapshot_packages : List SnapshotPackage)
    (merkle_or_lattice_accounts_hash : MerkleOrLatticeAccountsHash)
    (bank_incremental_snapshot_persistence : Option BankIncrementalSnapshotPersistence) :
    List Event × List SnapshotPackage :=
  match accounts_package.package_kind with
  | .snapshot _ =>
      let snapshot_package : SnapshotPackage :=
        ⟨accounts_package.package_kind, accounts_package.slot,
         merkle_or_lattice_accounts_hash, bank_incremental_snapshot_persistence⟩
      ([Event.pushPendingSnapshotPackage snapshot_package],
       pending_snapshot_packages ++ [snapshot_package])
  | _ => ([], pending_snapshot_packages)

/-- Mirrors `AccountsHashVerifier::process_accounts_package`: hash, then
purge, then submit; returns the combined event trace, the `io::Result`
outcome, and the updated pending-packages container. -/
def process_accounts_package
    (accounts_package : AccountsPackage)
    (pending_snapshot_packages : List SnapshotPackage)
    (snapshot_config : SnapshotConfig) :
    List Event × RunResult Unit × List SnapshotPackage :=
  let (hash_events, hash_result) :=
    calculate_and_verify_accounts_hash accounts_package snapshot_config
  match hash_result with
  | .panicked reason => (hash_events, .panicked reason, pending_snapshot_packages)
  | .err e => (hash_events, .err e, pending_snapshot_packages)
  | .ok (merkle_or_lattice_accounts_hash, bank_incremental_snapshot_persistence) =>
      let purge_events := purge_old_accounts_hashes accounts_package snapshot_config
      let (push_events, pending') :=
        submit_for_packaging accounts_package pending_snapshot_packages
          merkle_or_lattice_accounts_hash bank_incremental_snapshot_persistence
      (hash_events ++ purge_events ++ push_events, .ok (), pending')

/-- The accounts-package channel (a crossbeam channel seen from both of its
endpoints): the buffered packages in FIFO order, an optional bound (the
production channel, created with `crossbeam_channel::unbounded()`, has
`capacity = none`), and whether the other endpoints are still connected. -/
structure Channel where
  buf : List AccountsPackage
  capacity : Option Nat
  connected : Bool

/-- Mirrors `Sender::try_send`: fails (`none`) when the channel is
disconnected or its bounded capacity is hit, otherwise appends. -/
def try_send (channel : Channel) (package : AccountsPackage) : Option Channel :=
  if channel.connected = false then none
  else
    match channel.capacity with
    | some cap =>
        if cap ≤ channel.buf.length then none
        else some ⟨channel.buf ++ [package], channel.capacity, channel.connected⟩
    | none => some ⟨channel.buf ++ [package], channel.capacity, channel.connected⟩

/-- How many drained packages are `EpochAccountsHash` packages (the filter
counted by the selector's assertion). -/
def countEahPackages (packages : List AccountsPackage) : Nat :=
  (packages.filter
    (fun package => decide (package.package_kind = AccountsPackageKind.epochAccountsHash))).length

/-- Three-way comparison on `Nat`, standing for Rust's `Ord::cmp` on `u64`. -/
def cmpNat (a b : Nat) : Ordering :=
  if a < b then .lt else if a = b then .eq else .gt

/-- Kind rank of the priority order:
`EpochAccountsHash > Snapshot(FullSnapshot) > Snapshot(IncrementalSnapshot _)`. -/
def kindRank : AccountsPackageKind → Nat
  | .epochAccountsHash => 2
  | .snapshot .fullSnapshot => 1
  | .snapshot (.incrementalSnapshot _) => 0

/-- The base slot of an incremental-snapshot kind, `0` otherwise (used as the
comparator's last key, where it only ever compares incremental kinds). -/
def incrementalBaseSlot : AccountsPackageKind → Nat
  | .snapshot (.incrementalSnapshot base_slot) => base_slot
  | _ => 0

/-- Modelled from the spec: the priority comparator
`snapshot_package::cmp_accounts_packages_by_priority` lives in the
`solana_runtime` crate, whose source is not part of this repository slice.
Spec §4.1 defines it as a total order comparing kind rank first
(`EpochAccountsHash > Snapshot(FullSnapshot) > Snapshot(IncrementalSnapshot _)`),
then `slot` (larger wins), then — within incremental snapshots — `base_slot`
as a secondary key; ties on all keys compare equal. -/
def cmp_accounts_packages_by_priority (a b : AccountsPackage) : Ordering :=
  (cmpNat (kindRank a.package_kind) (kindRank b.package_kind)).then
    ((cmpNat a.slot b.slot).then
      (cmpNat (incrementalBaseSlot a.package_kind) (incrementalBaseSlot b.package_kind)))

/-- Extract a maximal element under `cmp` from a list, together with the other
elements in their relative order.  This models what
`select_nth_unstable_by(len - 2, ...)` guarantees about the last position
(and, applied again to the remainder, about position `len - 2`): the element
placed last compares greater-or-equal to every other. -/
def extractMaxBy {α : Type} (cmp : α → α → Ordering) : List α → Option (List α × α)
  | [] => none
  | p :: ps =>
    match extractMaxBy cmp ps with
    | none => some ([], p)
    | some (rest, m) =>
      match cmp p m with
      | .gt => some (ps, p)
      | _ => some (p :: rest, m)

/-- Mirrors the selector's re-enqueue pass: iterate over the unprocessed
packages, `try_send` those with slot strictly greater than the handled slot,
and count them; a failed send is the `expect("re-enqueue accounts package")`
panic, modelled as `none`. -/
def reenqueueAll (channel : Channel) (handled_slot : Nat) :
    List AccountsPackage → Option (Channel × Nat)
  | [] => some (channel, 0)
  | package :: rest =>
    if handled_slot < package.slot then
      match try_send channel package with
      | none => none
      | some channel' =>
          match reenqueueAll channel' handled_slot rest with
          | none => none
          | some (channel'', n) => some (channel'', n + 1)
    else reenqueueAll channel handled_slot rest

/-- Outcome of one call to `get_next_accounts_package`. -/
inductive SelectorResult where
  | empty : SelectorResult
  | selected (package : AccountsPackage)
      (num_outstanding num_re_enqueued : Nat) : SelectorResult
  | panicked (reason : PanicReason) : SelectorResult

/-- Whether a selector result actually selected a package. -/
def SelectorResult.isSelected : SelectorResult → Bool
  | .selected _ _ _ => true
  | _ => false

/-- The EAH/full-snapshot tie-break test applied to the highest-priority
package `z` and the second-highest `y`: true exactly when `z` is an
`EpochAccountsHash` request and `y` a `FullSnapshot` request with a lower
slot, in which case `y` is handled first. -/
def tieBreak (z y : AccountsPackage) : Bool :=
  decide (z.package_kind = AccountsPackageKind.epochAccountsHash) &&
  decide (y.package_kind = AccountsPackageKind.snapshot SnapshotKind.fullSnapshot) &&
  decide (y.slot < z.slot)

/-- The package the selector handles, given the top-two packages `z` and `y`
(the two `pop`s guarded by the tie-break). -/
def selChosen (z y : AccountsPackage) : AccountsPackage :=
  if tieBreak z y then y else z

/-- The unprocessed packages left in the local buffer after the chosen one is
popped: the unsorted remainder plus whichever of `z`/`y` was not handled. -/
def selSurvivors (rest2 : List AccountsPackage) (z y : AccountsPackage) :
    List AccountsPackage :=
  if tieBreak z y then rest2 ++ [z] else rest2 ++ [y]

/-- The `N ≥ 2` arm of the selector: assert at most one EAH package, pick the
two highest-priority packages `y` and `z`, apply the EAH/full-snapshot
tie-break, then re-enqueue the surviving packages with greater slots.
`drained` is the channel after the drain (its buffer already empty).  The
`unreachableBranch` arms model the `unwrap`/`assert_eq!(z.len(), 1)` calls on
states the surrounding code rules out. -/
def select_from_buffer (drained : Channel) (accounts_packages : List AccountsPackage) :
    SelectorResult × Channel :=
  let num_eah := countEahPackages accounts_packages
  if 1 < num_eah then (.panicked (.eahAssertion num_eah), drained)
  else
    match extractMaxBy cmp_accounts_packages_by_priority accounts_packages with
    | none => (.panicked .unreachableBranch, drained)
    | some (rest1, z) =>
      match extractMaxBy cmp_accounts_packages_by_priority rest1 with
      | none => (.panicked .unreachableBranch, drained)
      | some (rest2, y) =>
        let accounts_package := selChosen z y
        let survivors := selSurvivors rest2 z y
        match reenqueueAll drained accounts_package.slot survivors with
        | none => (.panicked .reenqueueFailed, drained)
        | some (channel', num_re_enqueued) =>
            (.selected accounts_package accounts_packages.length num_re_enqueued, channel')

/-- Mirrors `AccountsHashVerifier::get_next_accounts_package`: drain the
channel, return `empty` on zero packages, the sole package with counters
`(1, 0)` on one, and otherwise run the priority selection. -/
def get_next_accounts_package (channel : Channel) : SelectorResult × Channel :=
  let drained : Channel := ⟨[], channel.capacity, channel.connected⟩
  match channel.buf with
  | [] => (.empty, drained)
  | [accounts_package] => (.selected accounts_package 1 0, drained)
  | p1 :: p2 :: rest => select_from_buffer drained (p1 :: p2 :: rest)

/-- The state the Verifier Loop thread reads and writes: the package channel
(of which it holds both endpoints), the shared pending-packages container,
and the shutdown flag. -/
structure LoopState where
  channel : Channel
  pending : List SnapshotPackage
  exit : Bool

/-- Outcome of one iteration of the Verifier Loop. -/
inductive LoopStepOutcome where
  | exited : LoopStepOutcome
  | slept : LoopStepOutcome
  | processed : LoopStepOutcome
  | fatalError (e : IoError) : LoopStepOutcome
  | panicked (reason : PanicReason) : LoopStepOutcome

/-- Whether a loop iteration took the fatal-`Err` branch (log, set the
shutdown flag, break). -/
def LoopStepOutcome.isFatalError : LoopStepOutcome → Bool
  | .fatalError _ => true
  | _ => false

/-- Mirrors one iteration of the worker loop spawned by
`AccountsHashVerifier::new`: check the exit flag, select the next package
(sleeping when the channel is empty), process it, and on `Err` set the exit
flag; a panic anywhere terminates the thread abnormally. -/
def verifier_loop_step (st : LoopState) (snapshot_config : SnapshotConfig) :
    LoopStepOutcome × LoopState :=
  if st.exit then (.exited, st)
  else
    match get_next_accounts_package st.channel with
    | (.empty, channel') => (.slept, ⟨channel', st.pending, st.exit⟩)
    | (.panicked reason, channel') => (.panicked reason, ⟨channel', st.pending, st.exit⟩)
    | (.selected accounts_package _n _k, channel') =>
      match process_accounts_package accounts_package st.pending snapshot_config with
      | (_events, .panicked reason, pending') =>
          (.panicked reason, ⟨channel', pending', st.exit⟩)
      | (_events, .err e, pending') => (.fatalError e, ⟨channel', pending', true⟩)
      | (_events, .ok _u, pending') => (.processed, ⟨channel', pending', st.exit⟩)

/-! ### Order-theoretic facts about the priority comparator -/

theorem cmpNat_eq_iff {a b : Nat} : cmpNat a b = .eq ↔ a = b := by
  unfold cmpNat
  split
  · simp; omega
  · split
    · simp_all
    · simp; omega

theorem cmpNat_gt_iff {a b : Nat} : cmpNat a b = .gt ↔ b < a := by
  unfold cmpNat
  split
  · simp; omega
  · split
    · simp; omega
    · simp; omega

theorem ordering_then_eq_gt (o p : Ordering) :
    o.then p = .gt ↔ (o = .gt ∨ (o = .eq ∧ p = .gt)) := by
  cases o <;> simp [Ordering.then]

/-- Unfolding of the comparator's strict `gt` into linear arithmetic. -/
theorem cmp_priority_gt_iff (a b : AccountsPackage) :
    cmp_accounts_packages_by_priority a b = .gt ↔
      (kindRank b.package_kind < kindRank a.package_kind
       ∨ (kindRank a.package_kind = kindRank b.package_kind ∧
           (b.slot < a.slot ∨ (a.slot = b.slot ∧
             incrementalBaseSlot b.package_kind <
               incrementalBaseSlot a.package_kind)))) := by
  unfold cmp_accounts_packages_by_priority
  rw [ordering_then_eq_gt, ordering_then_eq_gt, cmpNat_gt_iff, cmpNat_eq_iff,
    cmpNat_gt_iff, cmpNat_eq_iff, cmpNat_gt_iff]

/-- The comparator is irreflexive at `gt`. -/
theorem cmp_priority_irrefl (a : AccountsPackage) :
    cmp_accounts_packages_by_priority a a ≠ .gt := by
  intro h
  rw [cmp_priority_gt_iff] at h
  rcases h with h | ⟨h1, h2 | ⟨h3, h4⟩⟩ <;> omega

/-- The comparator's `gt` is transitive. -/
theorem cmp_priority_gt_trans (a b c : AccountsPackage)
    (hab : cmp_accounts_packages_by_priority a b = .gt)
    (hbc : cmp_accounts_packages_by_priority b c = .gt) :
    cmp_accounts_packages_by_priority a c = .gt := by
  rw [cmp_priority_gt_iff] at hab hbc ⊢
  rcases hab with h | ⟨h1, h2 | ⟨h3, h4⟩⟩ <;>
    rcases hbc with g | ⟨g1, g2 | ⟨g3, g4⟩⟩ <;>
    first
      | exact Or.inl (by omega)
      | exact Or.inr ⟨by omega, Or.inl (by omega)⟩
      | exact Or.inr ⟨by omega, Or.inr ⟨by omega, by omega⟩⟩

/-! ### Facts about `extractMaxBy` -/

theorem extractMaxBy_cons_none {α : Type} (cmp : α → α → Ordering) (p : α) (ps : List α)
    (h : extractMaxBy cmp ps = none) :
    extractMaxBy cmp (p :: ps) = some ([], p) := by
  have e : extractMaxBy cmp (p :: ps) =
      (match extractMaxBy cmp ps with
       | none => some ([], p)
       | some (rest, m) =>
         match cmp p m with
         | .gt => some (ps, p)
         | _ => some (p :: rest, m)) := rfl
  rw [e, h]

theorem extractMaxBy_cons_some {α : Type} (cmp : α → α → Ordering) (p : α)
    (ps rest : List α) (m : α) (h : extractMaxBy cmp ps = some (rest, m)) :
    extractMaxBy cmp (p :: ps) =
      match cmp p m with
      | .gt => some (ps, p)
      | _ => some (p :: rest, m) := by
  have e : extractMaxBy cmp (p :: ps) =
      (match extractMaxBy cmp ps with
       | none => some ([], p)
       | some (rest, m) =>
         match cmp p m with
         | .gt => some (ps, p)
         | _ => some (p :: rest, m)) := rfl
  rw [e, h]

theorem extractMaxBy_eq_none_iff {α : Type} (cmp : α → α → Ordering) (l : List α) :
    extractMaxBy cmp l = none ↔ l = [] := by
  cases l with
  | nil => simp [extractMaxBy]
  | cons p ps =>
    simp only [List.cons_ne_nil, iff_false]
    cases hps : extractMaxBy cmp ps with
    | none => rw [extractMaxBy_cons_none cmp p ps hps]; simp
    | some pr =>
      obtain ⟨rest, m⟩ := pr
      rw [extractMaxBy_cons_some cmp p ps rest m hps]
      cases hc : cmp p m <;> simp

theorem extractMaxBy_cons_isSome {α : Type} (cmp : α → α → Ordering) (p : α) (ps : List α) :
    ∃ rest m, extractMaxBy cmp (p :: ps) = some (rest, m) := by
  cases hps : extractMaxBy cmp ps with
  | none => exact ⟨[], p, extractMaxBy_cons_none cmp p ps hps⟩
  | some pr =>
    obtain ⟨rest, m⟩ := pr
    rw [extractMaxBy_cons_some cmp p ps rest m hps]
    cases hc : cmp p m
    · exact ⟨p :: rest, m, rfl⟩
    · exact ⟨p :: rest, m, rfl⟩
    · exact ⟨ps, p, rfl⟩

theorem extractMaxBy_perm {α : Type} (cmp : α → α → Ordering) (l : List α) :
    ∀ rest m, extractMaxBy cmp l = some (rest, m) → l.Perm (m :: rest) := by
  induction l with
  | nil => intro rest m h; simp [extractMaxBy] at h
  | cons p ps ih =>
    intro rest m h
    cases hps : extractMaxBy cmp ps with
    | none =>
      rw [extractMaxBy_cons_none cmp p ps hps] at h
      simp only [Option.some.injEq, Prod.mk.injEq] at h
      obtain ⟨h1, h2⟩ := h
      subst h1; subst h2
      have hnil : ps = [] := (extractMaxBy_eq_none_iff cmp ps).mp hps
      subst hnil
      exact List.Perm.refl _
    | some pr =>
      obtain ⟨rest0, m0⟩ := pr
      rw [extractMaxBy_cons_some cmp p ps rest0 m0 hps] at h
      have hperm := ih rest0 m0 hps
      cases hc : cmp p m0 <;> rw [hc] at h <;>
        simp only [Option.some.injEq, Prod.mk.injEq] at h <;>
        obtain ⟨h1, h2⟩ := h <;> subst h1 <;> subst h2
      · exact (hperm.cons p).trans (List.Perm.swap _ _ _)
      · exact (hperm.cons p).trans (List.Perm.swap _ _ _)
      · exact List.Perm.refl _

theorem extractMaxBy_max {α : Type} (cmp : α → α → Ordering)
    (hirr : ∀ a, cmp a a ≠ .gt)
    (htrans : ∀ a b c, cmp a b = .gt → cmp b c = .gt → cmp a c = .gt)
    (l : List α) :
    ∀ rest m, extractMaxBy cmp l = some (rest, m) → ∀ p ∈ l, cmp p m ≠ .gt := by
  induction l with
  | nil => intro rest m h; simp [extractMaxBy] at h
  | cons q qs ih =>
    intro rest m h p hp
    cases hqs : extractMaxBy cmp qs with
    | none =>
      rw [extractMaxBy_cons_none cmp q qs hqs] at h
      simp only [Option.some.injEq, Prod.mk.injEq] at h
      obtain ⟨h1, h2⟩ := h
      subst h1; subst h2
      have hnil : qs = [] := (extractMaxBy_eq_none_iff cmp qs).mp hqs
      subst hnil
      simp only [List.mem_singleton] at hp
      subst hp
      exact hirr _
    | some pr =>
      obtain ⟨rest0, m0⟩ := pr
      rw [extractMaxBy_cons_some cmp q qs rest0 m0 hqs] at h
      have hmax0 := ih rest0 m0 hqs
      cases hc : cmp q m0 <;> rw [hc] at h <;>
        simp only [Option.some.injEq, Prod.mk.injEq] at h <;>
        obtain ⟨h1, h2⟩ := h <;> subst h1 <;> subst h2
      · rcases List.mem_cons.mp hp with hpq | hpqs
        · subst hpq; rw [hc]; simp
        · exact hmax0 p hpqs
      · rcases List.mem_cons.mp hp with hpq | hpqs
        · subst hpq; rw [hc]; simp
        · exact hmax0 p hpqs
      · rcases List.mem_cons.mp hp with hpq | hpqs
        · subst hpq; exact hirr _
        · intro hgt
          exact absurd (htrans p q m0 hgt hc) (hmax0 p hpqs)

/-! ### Facts about the re-enqueue pass -/

/-- On a connected unbounded channel (the production configuration) the
re-enqueue pass never fails: it appends exactly the survivors with slot
greater than the handled slot and counts them. -/
theorem reenqueueAll_unbounded (s : Nat) (l : List AccountsPackage) :
    ∀ channel : Channel, channel.connected = true → channel.capacity = none →
      reenqueueAll channel s l =
        some (⟨channel.buf ++ l.filter (fun p => decide (s < p.slot)), none, true⟩,
              (l.filter (fun p => decide (s < p.slot))).length) := by
  induction l with
  | nil =>
    intro ch hconn hcap
    obtain ⟨buf, cap, conn⟩ := ch
    simp only at hconn hcap
    subst hconn; subst hcap
    simp [reenqueueAll]
  | cons p ps ih =>
    intro ch hconn hcap
    simp only [reenqueueAll]
    by_cases hslot : s < p.slot
    · rw [if_pos hslot]
      have hts : try_send ch p = some ⟨ch.buf ++ [p], ch.capacity, ch.connected⟩ := by
        simp [try_send, hconn, hcap]
      simp only [hts]
      rw [ih ⟨ch.buf ++ [p], ch.capacity, ch.connected⟩ hconn hcap]
      simp [List.filter_cons, hslot, List.append_assoc]
    · rw [if_neg hslot]
      rw [ih ch hconn hcap]
      simp [List.filter_cons, hslot]

/-- On a disconnected channel the re-enqueue pass fails as soon as it has a
package to send. -/
theorem reenqueueAll_disconnected (s : Nat) (l : List AccountsPackage) :
    ∀ channel : Channel, channel.connected = false →
      (l.filter (fun p => decide (s < p.slot))).length ≠ 0 →
      reenqueueAll channel s l = none := by
  induction l with
  | nil => intro ch hconn hne; simp at hne
  | cons p ps ih =>
    intro ch hconn hne
    simp only [reenqueueAll]
    by_cases hslot : s < p.slot
    · rw [if_pos hslot]
      have hts : try_send ch p = none := by simp [try_send, hconn]
      simp only [hts]
    · rw [if_neg hslot]
      apply ih ch hconn
      simpa [List.filter_cons, hslot] using hne

/-- Behaviour of the `N ≥ 2` selection arm on a connected unbounded channel
with at most one EAH package: the tie-break-adjusted maximum is selected and
the strictly-greater-slot survivors are re-enqueued. -/
theorem select_from_buffer_spec (drained : Channel) (l rest1 rest2 : List AccountsPackage)
    (z y : AccountsPackage)
    (hconn : drained.connected = true) (hcap : drained.capacity = none)
    (heah : countEahPackages l ≤ 1)
    (h1 : extractMaxBy cmp_accounts_packages_by_priority l = some (rest1, z))
    (h2 : extractMaxBy cmp_accounts_packages_by_priority rest1 = some (rest2, y)) :
    select_from_buffer drained l =
      (.selected (selChosen z y) l.length
         (((selSurvivors rest2 z y).filter
            (fun p => decide ((selChosen z y).slot < p.slot))).length),
       ⟨drained.buf ++ (selSurvivors rest2 z y).filter
            (fun p => decide ((selChosen z y).slot < p.slot)),
        drained.capacity, drained.connected⟩) := by
  simp only [select_from_buffer, h1, h2]
  rw [if_neg (by omega : ¬ 1 < countEahPackages l)]
  rw [reenqueueAll_unbounded _ _ drained hconn hcap]
  rw [hconn, hcap]

/-- The `N ≥ 2` selection arm panics (the `expect` on `try_send`) when the
re-enqueue pass fails. -/
theorem select_from_buffer_fail (drained : Channel) (l rest1 rest2 : List AccountsPackage)
    (z y : AccountsPackage)
    (heah : countEahPackages l ≤ 1)
    (h1 : extractMaxBy cmp_accounts_packages_by_priority l = some (rest1, z))
    (h2 : extractMaxBy cmp_accounts_packages_by_priority rest1 = some (rest2, y))
    (hre : reenqueueAll drained (selChosen z y).slot (selSurvivors rest2 z y) = none) :
    select_from_buffer drained l = (.panicked .reenqueueFailed, drained) := by
  simp only [select_from_buffer, h1, h2, hre]
  rw [if_neg (by omega : ¬ 1 < countEahPackages l)]

/-- The tie-break flag unfolded into its propositional form. -/
theorem tieBreak_eq_true_iff (z y : AccountsPackage) :
    tieBreak z y = true ↔
      (z.package_kind = AccountsPackageKind.epochAccountsHash
       ∧ y.package_kind = AccountsPackageKind.snapshot SnapshotKind.fullSnapshot
       ∧ y.slot < z.slot) := by
  simp [tieBreak, Bool.and_eq_true, decide_eq_true_eq, and_assoc]

/-! ### Hasher path lemmas -/

/-- Complete description of `_calculate_full_accounts_hash` given the value
returned by the database. -/
theorem full_hash_spec (accounts_package : AccountsPackage) (hash lamports : Nat)
    (hrun : accounts_package.accounts_db.update_accounts_hash
        ⟨true, none, accounts_package.epoch_schedule accounts_package.slot, false⟩
        (sortStoragesBySlot accounts_package.snapshot_storages)
        accounts_package.slot = (hash, lamports)) :
    _calculate_full_accounts_hash accounts_package =
      (if accounts_package.expected_capitalization ≠ lamports then
        ([Event.dbUpdateAccountsHash
            ⟨true, none, accounts_package.epoch_schedule accounts_package.slot, false⟩
            (sortStoragesBySlot accounts_package.snapshot_storages)
            accounts_package.slot,
          Event.dbCalculateAccountsHash
            ⟨false, none, accounts_package.epoch_schedule accounts_package.slot, true⟩
            (sortStoragesBySlot accounts_package.snapshot_storages)],
         .panicked (.capitalizationMismatch
           accounts_package.expected_capitalization lamports
           (accounts_package.accounts_db.calculate_accounts_hash
              ⟨false, none, accounts_package.epoch_schedule accounts_package.slot, true⟩
              (sortStoragesBySlot accounts_package.snapshot_storages)).2))
       else
        ([Event.dbUpdateAccountsHash
            ⟨true, none, accounts_package.epoch_schedule accounts_package.slot, false⟩
            (sortStoragesBySlot accounts_package.snapshot_storages)
            accounts_package.slot],
         match accounts_package.accounts_hash_for_testing with
         | some expected =>
             if expected = hash then .ok (hash, lamports)
             else .panicked (.testHashMismatch expected hash)
         | none => .ok (hash, lamports))) := by
  unfold _calculate_full_accounts_hash
  simp only [hrun]
  by_cases hne : accounts_package.expected_capitalization ≠ lamports
  · rw [if_pos hne, if_pos hne]
    rfl
  · rw [if_neg hne, if_neg hne]
    cases horacle : accounts_package.accounts_hash_for_testing with
    | none => rfl
    | some expected =>
      by_cases he : expected = hash <;> simp [he]

/-- The Merkle/full path of the Hasher reduces to the full-hash helper. -/
theorem calc_merkle_full (accounts_package : AccountsPackage)
    (snapshot_config : SnapshotConfig)
    (halg : accounts_package.accounts_hash_algorithm = .merkle)
    (hkind : accounts_package.package_kind = .snapshot .fullSnapshot) :
    calculate_and_verify_accounts_hash accounts_package snapshot_config =
      ((_calculate_full_accounts_hash accounts_package).1,
       match (_calculate_full_accounts_hash accounts_package).2 with
       | .panicked reason => .panicked reason
       | .ok (h, _c) => .ok (.merkle (.full h), none)) := by
  unfold calculate_and_verify_accounts_hash
  rw [halg, hkind]
  rcases hf : _calculate_full_accounts_hash accounts_package with ⟨events, outcome⟩
  cases outcome with
  | panicked reason => rfl
  | ok v => obtain ⟨vh, vc⟩ := v; rfl

/-- Complete description of the Merkle/incremental path of the Hasher when
the base hash lookup succeeds. -/
theorem incremental_spec (accounts_package : AccountsPackage)
    (snapshot_config : SnapshotConfig)
    (base_slot base_hash base_capitalization ihash icap : Nat)
    (halg : accounts_package.accounts_hash_algorithm = .merkle)
    (hkind : accounts_package.package_kind = .snapshot (.incrementalSnapshot base_slot))
    (hbase : accounts_package.accounts_db.get_accounts_hash base_slot =
      some (base_hash, base_capitalization))
    (hcalc : accounts_package.accounts_db.update_incremental_accounts_hash
        ⟨true, none, accounts_package.epoch_schedule accounts_package.slot, false⟩
        (sortStoragesBySlot (accounts_package.snapshot_storages.filter
          (fun storage => decide (base_slot < storage.slot))))
        accounts_package.slot = (ihash, icap)) :
    calculate_and_verify_accounts_hash accounts_package snapshot_config =
      ([Event.dbGetAccountsHash base_slot,
        Event.dbUpdateIncrementalAccountsHash
          ⟨true, none, accounts_package.epoch_schedule accounts_package.slot, false⟩
          (sortStoragesBySlot (accounts_package.snapshot_storages.filter
            (fun storage => decide (base_slot < storage.slot))))
          accounts_package.slot],
       .ok (.merkle (.incremental ihash),
            some ⟨base_slot, base_hash, base_capitalization, ihash, icap⟩)) := by
  unfold calculate_and_verify_accounts_hash
  simp only [halg, hkind, hbase]
  unfold _calculate_incremental_accounts_hash
  simp only [hcalc]

/-! ### Concrete instances used by witnesses and counterexamples -/

/-- A trivial accounts database for concrete packages. -/
def dbZero : AccountsDb :=
  ⟨fun _ _ _ => (0, 0), fun _ _ => (0, 0), fun _ _ _ => (0, 0), fun _ => none, [], []⟩

/-- A concrete accounts package of the given kind and slot (Merkle algorithm,
no storages, expected capitalization `0`, no test oracle). -/
def basePackage (kind : AccountsPackageKind) (slot : Nat) : AccountsPackage :=
  ⟨kind, slot, slot, [], 0, none, dbZero, fun _ => 0, .merkle⟩

/-- A concrete snapshot configuration with snapshot generation enabled. -/
def configZero : SnapshotConfig := ⟨true, [], []⟩


/-! ### Claims C3, C4, C5, C6, C7 — the Hasher and the Curator -/

/-- C3: for every processed package, the Curator calls
`accounts_db.purge_old_accounts_hashes(package.slot)` exactly once if
snapshot generation is disabled (any package kind) or if snapshot generation
is enabled and the package kind is `Snapshot(FullSnapshot)`; in every other
case (snapshot generation enabled with an `IncrementalSnapshot` or
`EpochAccountsHash` package) it performs no purge call at all. -/
theorem c3_curator_policy (accounts_package : AccountsPackage)
    (snapshot_config : SnapshotConfig) :
    purge_old_accounts_hashes accounts_package snapshot_config =
      (if snapshot_config.should_generate_snapshots = false
          ∨ accounts_package.package_kind =
              AccountsPackageKind.snapshot SnapshotKind.fullSnapshot
       then [Event.dbPurgeOldAccountsHashes accounts_package.slot]
       else []) := by
  unfold purge_old_accounts_hashes
  cases hg : snapshot_config.should_generate_snapshots with
  | false => simp
  | true =>
    cases hk : accounts_package.package_kind with
    | epochAccountsHash => simp
    | snapshot sk =>
      cases sk with
      | fullSnapshot => simp
      | incrementalSnapshot base_slot => simp

/-- C4: for every `IncrementalSnapshot(base_slot)` package with the Merkle
algorithm, if `accounts_db.get_accounts_hash(base_slot)` returns `None` the
Hasher panics — rather than returning a value or an `Err` — and the panic's
diagnostic dump lists the retained full and incremental hashes and the
on-disk archive and bank-snapshot inventories. -/
theorem c4_missing_base_hash_panics (accounts_package : AccountsPackage)
    (snapshot_config : SnapshotConfig) (base_slot : Nat)
    (halg : accounts_package.accounts_hash_algorithm = AccountsHashAlgorithm.merkle)
    (hkind : accounts_package.package_kind =
      AccountsPackageKind.snapshot (SnapshotKind.incrementalSnapshot base_slot))
    (hmiss : accounts_package.accounts_db.get_accounts_hash base_slot = none) :
    calculate_and_verify_accounts_hash accounts_package snapshot_config =
      ([Event.dbGetAccountsHash base_slot],
       .panicked (.missingBaseAccountsHash
         ⟨accounts_package.slot,
          accounts_package.accounts_db.get_accounts_hashes,
          accounts_package.accounts_db.get_incremental_accounts_hashes,
          get_full_snapshot_archives snapshot_config,
          get_bank_snapshots snapshot_config⟩)) := by
  unfold calculate_and_verify_accounts_hash
  simp only [halg, hkind, hmiss]

/-- A database for the C4 witness: no cached base hash, non-empty retained
inventories for the dump. -/
def dbC4 : AccountsDb :=
  ⟨fun _ _ _ => (0, 0), fun _ _ => (0, 0), fun _ _ _ => (0, 0), fun _ => none,
   [(9, 11, 12)], [(10, 13, 14)]⟩

/-- The C4 witness package: an incremental snapshot based on slot `3`. -/
def packageC4 : AccountsPackage :=
  ⟨.snapshot (.incrementalSnapshot 3), 20, 20, [], 0, none, dbC4, fun _ => 0, .merkle⟩

/-- The C4 witness configuration, with non-empty on-disk inventories. -/
def configC4 : SnapshotConfig := ⟨true, [21], [22]⟩

/-- Witness for C4 at a concrete package whose base hash is missing. -/
theorem c4_missing_base_hash_panics_witness :
    calculate_and_verify_accounts_hash packageC4 configC4 =
      ([Event.dbGetAccountsHash 3],
       .panicked (.missingBaseAccountsHash
         ⟨20, [(9, 11, 12)], [(10, 13, 14)], [21], [22]⟩)) :=
  c4_missing_base_hash_panics packageC4 configC4 3 rfl rfl rfl

/-- C7: for every package whose `accounts_hash_algorithm` is `Lattice`,
regardless of package kind (including `EpochAccountsHash`), the Hasher
returns `Ok((Lattice, None))` immediately with an empty event trace: no
storage is read, no hash computation is invoked, and no panic occurs. -/
theorem c7_lattice_short_circuit (accounts_package : AccountsPackage)
    (snapshot_config : SnapshotConfig)
    (halg : accounts_package.accounts_hash_algorithm = AccountsHashAlgorithm.lattice) :
    calculate_and_verify_accounts_hash accounts_package snapshot_config =
      ([], .ok (.lattice, none)) := by
  unfold calculate_and_verify_accounts_hash
  simp only [halg]

/-- Witness for C7 at a concrete `EpochAccountsHash` package with the lattice
algorithm. -/
theorem c7_lattice_short_circuit_witness :
    calculate_and_verify_accounts_hash
      ⟨.epochAccountsHash, 7, 7, [], 0, none, dbZero, fun _ => 0, .lattice⟩
      configZero = ([], .ok (.lattice, none)) :=
  c7_lattice_short_circuit _ _ rfl

/-- A database for the C5 counterexample: capitalization matches but the
computed hash is `1`. -/
def dbC5 : AccountsDb :=
  ⟨fun _ _ _ => (1, 0), fun _ _ => (1, 0), fun _ _ _ => (1, 0), fun _ => none, [], []⟩

/-- The C5 counterexample package: a Merkle full snapshot whose computed
lamports equal `expected_capitalization` but whose test-oracle hash `999`
differs from the computed hash `1`. -/
def packageC5 : AccountsPackage :=
  ⟨.snapshot .fullSnapshot, 5, 5, [], 0, some 999, dbC5, fun _ => 0, .merkle⟩

/-- Counterexample to C5 as stated: at `packageC5` the computed lamports equal
the expected capitalization, yet the Hasher still panics (the test-oracle
`assert_eq!`), refuting "if they are equal ... no panic occurs". -/
theorem c5_counterexample :
    (packageC5.accounts_db.update_accounts_hash
       ⟨true, none, packageC5.epoch_schedule packageC5.slot, false⟩
       (sortStoragesBySlot packageC5.snapshot_storages) packageC5.slot).2 =
      packageC5.expected_capitalization
  ∧ (calculate_and_verify_accounts_hash packageC5 configZero).2 =
      .panicked (.testHashMismatch 999 1) :=
  ⟨rfl, rfl⟩

/-- C5 (amended): for every `FullSnapshot` package with the Merkle algorithm,
if the lamports returned by `update_accounts_hash` differ from
`package.expected_capitalization`, the Hasher calls `calculate_accounts_hash`
exactly once more — with `use_bg_thread_pool = false` and
`store_detailed_debug_info_on_failure = true` — and then panics reporting the
expected, computed and recomputed values; if they are equal, no such
recomputation happens and the outcome is `Ok`, unless the optional
test-oracle hash is present and differs from the computed hash, in which
case the oracle assertion panics. -/
theorem c5_capitalization_mismatch (accounts_package : AccountsPackage)
    (snapshot_config : SnapshotConfig) (hash lamports : Nat)
    (halg : accounts_package.accounts_hash_algorithm = AccountsHashAlgorithm.merkle)
    (hkind : accounts_package.package_kind =
      AccountsPackageKind.snapshot SnapshotKind.fullSnapshot)
    (hrun : accounts_package.accounts_db.update_accounts_hash
        ⟨true, none, accounts_package.epoch_schedule accounts_package.slot, false⟩
        (sortStoragesBySlot accounts_package.snapshot_storages)
        accounts_package.slot = (hash, lamports)) :
    (accounts_package.expected_capitalization ≠ lamports →
       calculate_and_verify_accounts_hash accounts_package snapshot_config =
         ([Event.dbUpdateAccountsHash
             ⟨true, none, accounts_package.epoch_schedule accounts_package.slot, false⟩
             (sortStoragesBySlot accounts_package.snapshot_storages)
             accounts_package.slot,
           Event.dbCalculateAccountsHash
             ⟨false, none, accounts_package.epoch_schedule accounts_package.slot, true⟩
             (sortStoragesBySlot accounts_package.snapshot_storages)],
          .panicked (.capitalizationMismatch
            accounts_package.expected_capitalization lamports
            (accounts_package.accounts_db.calculate_accounts_hash
               ⟨false, none, accounts_package.epoch_schedule accounts_package.slot, true⟩
               (sortStoragesBySlot accounts_package.snapshot_storages)).2)))
  ∧ (accounts_package.expected_capitalization = lamports →
       (calculate_and_verify_accounts_hash accounts_package snapshot_config).1 =
         [Event.dbUpdateAccountsHash
            ⟨true, none, accounts_package.epoch_schedule accounts_package.slot, false⟩
            (sortStoragesBySlot accounts_package.snapshot_storages)
            accounts_package.slot]
       ∧ (calculate_and_verify_accounts_hash accounts_package snapshot_config).2 =
           (match accounts_package.accounts_hash_for_testing with
            | some expected =>
                if expected = hash then .ok (.merkle (.full hash), none)
                else .panicked (.testHashMismatch expected hash)
            | none => .ok (.merkle (.full hash), none))) := by
  have hfull := full_hash_spec accounts_package hash lamports hrun
  have hred := calc_merkle_full accounts_package snapshot_config halg hkind
  constructor
  · intro hne
    rw [hred, hfull, if_pos hne]
  · intro heq
    rw [hred, hfull, if_neg (fun h => h heq)]
    constructor
    · rfl
    · cases horacle : accounts_package.accounts_hash_for_testing with
      | none => rfl
      | some expected =>
        by_cases he : expected = hash <;> simp [he]

/-- A database for the C5 witness: the full hash run returns `(7, 9)` and the
diagnostic recomputation returns `(8, 10)`. -/
def dbC5w : AccountsDb :=
  ⟨fun _ _ _ => (7, 9), fun _ _ => (8, 10), fun _ _ _ => (0, 0), fun _ => none, [], []⟩

/-- The C5 witness package: expected capitalization `5`, computed lamports `9`. -/
def packageC5w : AccountsPackage :=
  ⟨.snapshot .fullSnapshot, 5, 5, [], 5, none, dbC5w, fun _ => 0, .merkle⟩

/-- Witness for the amended C5 at a concrete mismatching package. -/
theorem c5_capitalization_mismatch_witness :
    (packageC5w.expected_capitalization ≠ 9 →
       calculate_and_verify_accounts_hash packageC5w configZero =
         ([Event.dbUpdateAccountsHash ⟨true, none, 0, false⟩ [] 5,
           Event.dbCalculateAccountsHash ⟨false, none, 0, true⟩ []],
          .panicked (.capitalizationMismatch 5 9 10)))
  ∧ (packageC5w.expected_capitalization = 9 →
       (calculate_and_verify_accounts_hash packageC5w configZero).1 =
         [Event.dbUpdateAccountsHash ⟨true, none, 0, false⟩ [] 5]
       ∧ (calculate_and_verify_accounts_hash packageC5w configZero).2 =
           .ok (.merkle (.full 7), none)) :=
  c5_capitalization_mismatch packageC5w configZero 7 9 rfl rfl rfl

/-- C6: for every `IncrementalSnapshot(base_slot)` package with the Merkle
algorithm whose base-hash lookup succeeds, the Hasher hashes only the
storages with slot strictly greater than `base_slot` and returns
`Merkle(Incremental(hash))` together with a `BankIncrementalSnapshotPersistence`
built from the looked-up base hash and capitalization and the incremental
computation; and the outcome never depends on `expected_capitalization`. -/
theorem c6_incremental_hash (accounts_package : AccountsPackage)
    (snapshot_config : SnapshotConfig)
    (base_slot base_hash base_capitalization ihash icap : Nat)
    (halg : accounts_package.accounts_hash_algorithm = AccountsHashAlgorithm.merkle)
    (hkind : accounts_package.package_kind =
      AccountsPackageKind.snapshot (SnapshotKind.incrementalSnapshot base_slot))
    (hbase : accounts_package.accounts_db.get_accounts_hash base_slot =
      some (base_hash, base_capitalization))
    (hcalc : accounts_package.accounts_db.update_incremental_accounts_hash
        ⟨true, none, accounts_package.epoch_schedule accounts_package.slot, false⟩
        (sortStoragesBySlot (accounts_package.snapshot_storages.filter
          (fun storage => decide (base_slot < storage.slot))))
        accounts_package.slot = (ihash, icap)) :
    calculate_and_verify_accounts_hash accounts_package snapshot_config =
      ([Event.dbGetAccountsHash base_slot,
        Event.dbUpdateIncrementalAccountsHash
          ⟨true, none, accounts_package.epoch_schedule accounts_package.slot, false⟩
          (sortStoragesBySlot (accounts_package.snapshot_storages.filter
            (fun storage => decide (base_slot < storage.slot))))
          accounts_package.slot],
       .ok (.merkle (.incremental ihash),
            some ⟨base_slot, base_hash, base_capitalization, ihash, icap⟩))
  ∧ ∀ capitalization2 : Nat,
      calculate_and_verify_accounts_hash
        { accounts_package with expected_capitalization := capitalization2 }
        snapshot_config =
      calculate_and_verify_accounts_hash accounts_package snapshot_config := by
  constructor
  · exact incremental_spec accounts_package snapshot_config
      base_slot base_hash base_capitalization ihash icap halg hkind hbase hcalc
  · intro capitalization2
    exact (incremental_spec
        { accounts_package with expected_capitalization := capitalization2 }
        snapshot_config base_slot base_hash base_capitalization ihash icap
        halg hkind hbase hcalc).trans
      (incremental_spec accounts_package snapshot_config
        base_slot base_hash base_capitalization ihash icap halg hkind hbase hcalc).symm

/-- A database for the C6 witness: base hash `(31, 32)` cached at slot `3`,
incremental computation returning `(41, 42)`. -/
def dbC6 : AccountsDb :=
  ⟨fun _ _ _ => (0, 0), fun _ _ => (0, 0), fun _ _ _ => (41, 42),
   fun slot => if slot = 3 then some (31, 32) else none, [], []⟩

/-- The C6 witness package: incremental on base slot `3` at slot `9`, with one
storage at slot `2` (excluded) and one at slot `5` (included). -/
def packageC6 : AccountsPackage :=
  ⟨.snapshot (.incrementalSnapshot 3), 9, 9, [⟨2, 0⟩, ⟨5, 1⟩], 77, none, dbC6,
   fun _ => 0, .merkle⟩

/-- Witness for C6 at a concrete incremental package. -/
theorem c6_incremental_hash_witness :
    calculate_and_verify_accounts_hash packageC6 configZero =
      ([Event.dbGetAccountsHash 3,
        Event.dbUpdateIncrementalAccountsHash ⟨true, none, 0, false⟩ [⟨5, 1⟩] 9],
       .ok (.merkle (.incremental 41), some ⟨3, 31, 32, 41, 42⟩))
  ∧ ∀ capitalization2 : Nat,
      calculate_and_verify_accounts_hash
        { packageC6 with expected_capitalization := capitalization2 } configZero =
      calculate_and_verify_accounts_hash packageC6 configZero :=
  c6_incremental_hash packageC6 configZero 3 31 32 41 42 rfl rfl rfl rfl


/-! ### Claims C8 and C10 — phase ordering and the absence of `Err` -/

/-- Every event emitted by the full-hash helper is a database hashing call:
never a purge, never a push. -/
theorem full_hash_events_pure (accounts_package : AccountsPackage) :
    ∀ e ∈ (_calculate_full_accounts_hash accounts_package).1,
      e.isPurge = false ∧ e.isPush = false := by
  rcases hr : accounts_package.accounts_db.update_accounts_hash
      ⟨true, none, accounts_package.epoch_schedule accounts_package.slot, false⟩
      (sortStoragesBySlot accounts_package.snapshot_storages)
      accounts_package.slot with ⟨hash, lamports⟩
  rw [full_hash_spec accounts_package hash lamports hr]
  by_cases hne : accounts_package.expected_capitalization ≠ lamports
  · rw [if_pos hne]
    simp [Event.isPurge, Event.isPush]
  · rw [if_neg hne]
    simp [Event.isPurge, Event.isPush]

/-- Every event emitted by the Hasher is a database hashing call: never a
purge and never a push. -/
theorem calc_events_pure (accounts_package : AccountsPackage)
    (snapshot_config : SnapshotConfig) :
    ∀ e ∈ (calculate_and_verify_accounts_hash accounts_package snapshot_config).1,
      e.isPurge = false ∧ e.isPush = false := by
  cases halg : accounts_package.accounts_hash_algorithm with
  | lattice =>
    have h : calculate_and_verify_accounts_hash accounts_package snapshot_config =
        ([], .ok (.lattice, none)) := by
      unfold calculate_and_verify_accounts_hash
      simp only [halg]
    rw [h]
    simp
  | merkle =>
    cases hkind : accounts_package.package_kind with
    | epochAccountsHash =>
      have h : calculate_and_verify_accounts_hash accounts_package snapshot_config =
          ([], .panicked .eahRemoved) := by
        unfold calculate_and_verify_accounts_hash
        simp only [halg, hkind]
      rw [h]
      simp
    | snapshot sk =>
      cases sk with
      | fullSnapshot =>
        rw [calc_merkle_full accounts_package snapshot_config halg hkind]
        exact full_hash_events_pure accounts_package
      | incrementalSnapshot base_slot =>
        cases hbase : accounts_package.accounts_db.get_accounts_hash base_slot with
        | none =>
          have h : (calculate_and_verify_accounts_hash accounts_package
              snapshot_config).1 = [Event.dbGetAccountsHash base_slot] := by
            unfold calculate_and_verify_accounts_hash
            simp only [halg, hkind, hbase]
          rw [h]
          simp [Event.isPurge, Event.isPush]
        | some pr =>
          obtain ⟨bh, bc⟩ := pr
          rcases hinc : accounts_package.accounts_db.update_incremental_accounts_hash
              ⟨true, none, accounts_package.epoch_schedule accounts_package.slot, false⟩
              (sortStoragesBySlot (accounts_package.snapshot_storages.filter
                (fun storage => decide (base_slot < storage.slot))))
              accounts_package.slot with ⟨ih2, ic2⟩
          rw [incremental_spec accounts_package snapshot_config base_slot bh bc ih2 ic2
            halg hkind hbase hinc]
          simp [Event.isPurge, Event.isPush]

/-- Every event emitted by the Curator is a purge call. -/
theorem purge_events_purge (accounts_package : AccountsPackage)
    (snapshot_config : SnapshotConfig) :
    ∀ e ∈ purge_old_accounts_hashes accounts_package snapshot_config,
      e.isPurge = true := by
  intro e he
  simp only [purge_old_accounts_hashes] at he
  split at he
  · simp only [List.mem_singleton] at he
    subst he
    rfl
  · simp at he

/-- C8: within a single processing of one package, the hash computation
happens first, the Curator's purge strictly after hashing and strictly
before the packager handoff, and the handoff pushes a `SnapshotPackage` into
`PendingSnapshotPackages` if and only if the package kind is `Snapshot(_)`. -/
theorem c8_phase_ordering (accounts_package : AccountsPackage)
    (pending : List SnapshotPackage) (snapshot_config : SnapshotConfig)
    (hok : (process_accounts_package accounts_package pending snapshot_config).2.1 =
      .ok ()) :
    ∃ purge_events push_events,
      (process_accounts_package accounts_package pending snapshot_config).1 =
        (calculate_and_verify_accounts_hash accounts_package snapshot_config).1
          ++ purge_events ++ push_events
      ∧ (∀ e ∈ (calculate_and_verify_accounts_hash accounts_package snapshot_config).1,
           e.isPurge = false ∧ e.isPush = false)
      ∧ (∀ e ∈ purge_events, e.isPurge = true)
      ∧ (∀ e ∈ push_events, e.isPush = true)
      ∧ ((∃ sk, accounts_package.package_kind = AccountsPackageKind.snapshot sk) →
           ∃ sp, push_events = [Event.pushPendingSnapshotPackage sp]
             ∧ (process_accounts_package accounts_package pending snapshot_config).2.2 =
                 pending ++ [sp])
      ∧ ((∀ sk, accounts_package.package_kind ≠ AccountsPackageKind.snapshot sk) →
           push_events = []
           ∧ (process_accounts_package accounts_package pending snapshot_config).2.2 =
               pending) := by
  rcases hcv : calculate_and_verify_accounts_hash accounts_package snapshot_config
    with ⟨hash_events, hash_result⟩
  cases hash_result with
  | panicked reason =>
    have h : (process_accounts_package accounts_package pending snapshot_config).2.1 =
        .panicked reason := by
      unfold process_accounts_package
      simp only [hcv]
    rw [h] at hok
    exact RunResult.noConfusion hok
  | err e =>
    have h : (process_accounts_package accounts_package pending snapshot_config).2.1 =
        .err e := by
      unfold process_accounts_package
      simp only [hcv]
    rw [h] at hok
    exact RunResult.noConfusion hok
  | ok value =>
    obtain ⟨merkle_or_lattice, bips⟩ := value
    have hp : process_accounts_package accounts_package pending snapshot_config =
        (hash_events ++ purge_old_accounts_hashes accounts_package snapshot_config
           ++ (submit_for_packaging accounts_package pending merkle_or_lattice bips).1,
         .ok (),
         (submit_for_packaging accounts_package pending merkle_or_lattice bips).2) := by
      unfold process_accounts_package
      simp only [hcv]
    refine ⟨purge_old_accounts_hashes accounts_package snapshot_config,
            (submit_for_packaging accounts_package pending merkle_or_lattice bips).1,
            ?_, ?_, ?_, ?_, ?_, ?_⟩
    · simp only [hp]
    · have hce := calc_events_pure accounts_package snapshot_config
      rw [hcv] at hce
      exact hce
    · exact purge_events_purge accounts_package snapshot_config
    · intro e he
      cases hkind : accounts_package.package_kind with
      | epochAccountsHash =>
        simp only [submit_for_packaging, hkind] at he
        simp at he
      | snapshot sk =>
        simp only [submit_for_packaging, hkind] at he
        simp only [List.mem_singleton] at he
        subst he
        rfl
    · rintro ⟨sk, hsk⟩
      refine ⟨⟨AccountsPackageKind.snapshot sk, accounts_package.slot,
               merkle_or_lattice, bips⟩, ?_, ?_⟩
      · simp only [submit_for_packaging, hsk]
      · rw [hp]
        simp only [submit_for_packaging, hsk]
    · intro hns
      cases hkind : accounts_package.package_kind with
      | snapshot sk => exact absurd hkind (hns sk)
      | epochAccountsHash =>
        constructor
        · simp only [submit_for_packaging, hkind]
        · rw [hp]
          simp only [submit_for_packaging, hkind]

/-- The C8 witness package: a Merkle full snapshot whose capitalization
check passes. -/
def packageC8 : AccountsPackage :=
  ⟨.snapshot .fullSnapshot, 6, 6, [], 0, none, dbZero, fun _ => 0, .merkle⟩

/-- Witness for C8 at a concrete full-snapshot package. -/
theorem c8_phase_ordering_witness :
    ∃ purge_events push_events,
      (process_accounts_package packageC8 [] configZero).1 =
        (calculate_and_verify_accounts_hash packageC8 configZero).1
          ++ purge_events ++ push_events
      ∧ (∀ e ∈ (calculate_and_verify_accounts_hash packageC8 configZero).1,
           e.isPurge = false ∧ e.isPush = false)
      ∧ (∀ e ∈ purge_events, e.isPurge = true)
      ∧ (∀ e ∈ push_events, e.isPush = true)
      ∧ ((∃ sk, packageC8.package_kind = AccountsPackageKind.snapshot sk) →
           ∃ sp, push_events = [Event.pushPendingSnapshotPackage sp]
             ∧ (process_accounts_package packageC8 [] configZero).2.2 = [] ++ [sp])
      ∧ ((∀ sk, packageC8.package_kind ≠ AccountsPackageKind.snapshot sk) →
           push_events = []
           ∧ (process_accounts_package packageC8 [] configZero).2.2 = []) :=
  c8_phase_ordering packageC8 [] configZero rfl

/-- The Hasher never constructs an `Err`. -/
theorem calc_never_err (accounts_package : AccountsPackage)
    (snapshot_config : SnapshotConfig) :
    ((calculate_and_verify_accounts_hash accounts_package snapshot_config).2).isErr
      = false := by
  cases halg : accounts_package.accounts_hash_algorithm with
  | lattice =>
    have h : calculate_and_verify_accounts_hash accounts_package snapshot_config =
        ([], .ok (.lattice, none)) := by
      unfold calculate_and_verify_accounts_hash
      simp only [halg]
    rw [h]
    rfl
  | merkle =>
    cases hkind : accounts_package.package_kind with
    | epochAccountsHash =>
      have h : calculate_and_verify_accounts_hash accounts_package snapshot_config =
          ([], .panicked .eahRemoved) := by
        unfold calculate_and_verify_accounts_hash
        simp only [halg, hkind]
      rw [h]
      rfl
    | snapshot sk =>
      cases sk with
      | fullSnapshot =>
        rw [calc_merkle_full accounts_package snapshot_config halg hkind]
        cases hf : (_calculate_full_accounts_hash accounts_package).2 with
        | panicked reason => simp [RunResult.isErr]
        | ok v =>
          obtain ⟨vh, vc⟩ := v
          simp [RunResult.isErr]
      | incrementalSnapshot base_slot =>
        cases hbase : accounts_package.accounts_db.get_accounts_hash base_slot with
        | none =>
          have h : (calculate_and_verify_accounts_hash accounts_package
              snapshot_config).2 =
              .panicked (.missingBaseAccountsHash
                ⟨accounts_package.slot,
                 accounts_package.accounts_db.get_accounts_hashes,
                 accounts_package.accounts_db.get_incremental_accounts_hashes,
                 get_full_snapshot_archives snapshot_config,
                 get_bank_snapshots snapshot_config⟩) := by
            unfold calculate_and_verify_accounts_hash
            simp only [halg, hkind, hbase]
          rw [h]
          rfl
        | some pr =>
          obtain ⟨bh, bc⟩ := pr
          rcases hinc : accounts_package.accounts_db.update_incremental_accounts_hash
              ⟨true, none, accounts_package.epoch_schedule accounts_package.slot, false⟩
              (sortStoragesBySlot (accounts_package.snapshot_storages.filter
                (fun storage => decide (base_slot < storage.slot))))
              accounts_package.slot with ⟨ih2, ic2⟩
          rw [incremental_spec accounts_package snapshot_config base_slot bh bc ih2 ic2
            halg hkind hbase hinc]
          rfl

/-- Processing a package never produces an `Err`. -/
theorem process_never_err (accounts_package : AccountsPackage)
    (pending : List SnapshotPackage) (snapshot_config : SnapshotConfig) :
    ((process_accounts_package accounts_package pending snapshot_config).2.1).isErr
      = false := by
  rcases hcv : calculate_and_verify_accounts_hash accounts_package snapshot_config
    with ⟨hash_events, hash_result⟩
  have h := calc_never_err accounts_package snapshot_config
  rw [hcv] at h
  cases hash_result with
  | panicked reason =>
    unfold process_accounts_package
    simp [hcv, RunResult.isErr]
  | err e => exact absurd h (by simp [RunResult.isErr])
  | ok value =>
    obtain ⟨merkle_or_lattice, bips⟩ := value
    unfold process_accounts_package
    simp [hcv, RunResult.isErr]

/-- C10: every non-panicking execution of the Hasher returns `Ok` — neither
it nor `process_accounts_package` constructs an `Err` — so the Verifier
Loop's fatal-error branch is unreachable. -/
theorem c10_no_err_paths (accounts_package : AccountsPackage)
    (pending : List SnapshotPackage) (snapshot_config : SnapshotConfig)
    (st : LoopState) :
    ((calculate_and_verify_accounts_hash accounts_package snapshot_config).2).isErr
      = false
  ∧ ((process_accounts_package accounts_package pending snapshot_config).2.1).isErr
      = false
  ∧ ((verifier_loop_step st snapshot_config).1).isFatalError = false := by
  refine ⟨calc_never_err accounts_package snapshot_config,
          process_never_err accounts_package pending snapshot_config, ?_⟩
  unfold verifier_loop_step
  by_cases hex : st.exit
  · rw [if_pos hex]
    rfl
  · rw [if_neg hex]
    split
    · rfl
    · rfl
    next package n2 k2 channel2 hsel =>
      split
      · rfl
      next events e pending2 heq =>
        have h := process_never_err package st.pending snapshot_config
        rw [heq] at h
        simp [RunResult.isErr] at h
      · rfl


/-! ### Claims C1, C2, C9 — the Selector -/

theorem exists_two_of_two_le_length {α : Type} (l : List α) (h : 2 ≤ l.length) :
    ∃ p1 p2 rest, l = p1 :: p2 :: rest := by
  cases l with
  | nil => simp at h
  | cons p1 t =>
    cases t with
    | nil => simp at h
    | cons p2 rest => exact ⟨p1, p2, rest, rfl⟩

/-- C1 (amended): on the production transport (a connected, unbounded
channel): an empty channel yields no package; exactly one buffered package
is returned with counters `(1, 0)`; and when `N ≥ 2` packages are drained
*and at most one of them is an `EpochAccountsHash` package*, some drained
package `chosen` is returned with counters `(N, k)`, where exactly the
non-chosen drained packages with slot strictly greater than `chosen.slot`
are re-enqueued (`k` of them, forming the new channel contents) and every
other non-chosen package is dropped.  (With two or more EAH packages the
selector fails its assertion instead of returning — see the
counterexample.) -/
theorem c1_selector_contract (channel : Channel)
    (hconn : channel.connected = true) (hcap : channel.capacity = none) :
    (channel.buf = [] →
       get_next_accounts_package channel =
         (.empty, ⟨[], channel.capacity, channel.connected⟩))
  ∧ (∀ p, channel.buf = [p] →
       get_next_accounts_package channel =
         (.selected p 1 0, ⟨[], channel.capacity, channel.connected⟩))
  ∧ (2 ≤ channel.buf.length → countEahPackages channel.buf ≤ 1 →
       ∃ chosen survivors,
         channel.buf.Perm (chosen :: survivors) ∧
         get_next_accounts_package channel =
           (.selected chosen channel.buf.length
              ((survivors.filter (fun p => decide (chosen.slot < p.slot))).length),
            ⟨survivors.filter (fun p => decide (chosen.slot < p.slot)),
             channel.capacity, channel.connected⟩)) := by
  refine ⟨?_, ?_, ?_⟩
  · intro h
    unfold get_next_accounts_package
    rw [h]
  · intro p h
    unfold get_next_accounts_package
    rw [h]
  · intro hlen heah
    obtain ⟨p1, p2, rest, hbuf⟩ := exists_two_of_two_le_length channel.buf hlen
    obtain ⟨rest1, z, h1⟩ :=
      extractMaxBy_cons_isSome cmp_accounts_packages_by_priority p1 (p2 :: rest)
    have hperm1 := extractMaxBy_perm cmp_accounts_packages_by_priority _ _ _ h1
    rcases rest1 with _ | ⟨q, qs⟩
    · have := hperm1.length_eq
      simp at this
    obtain ⟨rest2, y, h2⟩ :=
      extractMaxBy_cons_isSome cmp_accounts_packages_by_priority q qs
    have hperm2 := extractMaxBy_perm cmp_accounts_packages_by_priority _ _ _ h2
    have hsel := select_from_buffer_spec ⟨[], channel.capacity, channel.connected⟩
      (p1 :: p2 :: rest) (q :: qs) rest2 z y hconn hcap
      (by rw [hbuf] at heah; exact heah) h1 h2
    have hget : get_next_accounts_package channel =
        select_from_buffer ⟨[], channel.capacity, channel.connected⟩
          (p1 :: p2 :: rest) := by
      unfold get_next_accounts_package
      rw [hbuf]
    refine ⟨selChosen z y, selSurvivors rest2 z y, ?_, ?_⟩
    · rw [hbuf]
      have hzy : (p1 :: p2 :: rest).Perm (z :: y :: rest2) :=
        hperm1.trans (hperm2.cons z)
      cases htb : tieBreak z y
      · have hch : selChosen z y = z := by simp [selChosen, htb]
        have hsv : selSurvivors rest2 z y = rest2 ++ [y] := by
          simp [selSurvivors, htb]
        rw [hch, hsv]
        exact hzy.trans (((List.perm_append_singleton y rest2).symm).cons z)
      · have hch : selChosen z y = y := by simp [selChosen, htb]
        have hsv : selSurvivors rest2 z y = rest2 ++ [z] := by
          simp [selSurvivors, htb]
        rw [hch, hsv]
        exact hzy.trans ((List.Perm.swap y z rest2).trans
          (((List.perm_append_singleton z rest2).symm).cons y))
    · rw [hget, hsel, hbuf]
      simp

/-- The C1 witness channel: two snapshot packages on a connected unbounded
channel. -/
def channelW1 : Channel :=
  ⟨[basePackage (.snapshot .fullSnapshot) 10,
    basePackage (.snapshot (.incrementalSnapshot 10)) 20], none, true⟩

/-- Witness for the amended C1 at a concrete two-package channel. -/
theorem c1_selector_contract_witness :
    (channelW1.buf = [] →
       get_next_accounts_package channelW1 =
         (.empty, ⟨[], channelW1.capacity, channelW1.connected⟩))
  ∧ (∀ p, channelW1.buf = [p] →
       get_next_accounts_package channelW1 =
         (.selected p 1 0, ⟨[], channelW1.capacity, channelW1.connected⟩))
  ∧ (2 ≤ channelW1.buf.length → countEahPackages channelW1.buf ≤ 1 →
       ∃ chosen survivors,
         channelW1.buf.Perm (chosen :: survivors) ∧
         get_next_accounts_package channelW1 =
           (.selected chosen channelW1.buf.length
              ((survivors.filter (fun p => decide (chosen.slot < p.slot))).length),
            ⟨survivors.filter (fun p => decide (chosen.slot < p.slot)),
             channelW1.capacity, channelW1.connected⟩)) :=
  c1_selector_contract channelW1 rfl rfl

/-- A channel holding two `EpochAccountsHash` packages. -/
def channelTwoEah : Channel :=
  ⟨[basePackage .epochAccountsHash 5, basePackage .epochAccountsHash 7], none, true⟩

/-- Counterexample to C1 as stated: with two EAH packages drained (`N = 2`)
on a healthy channel, the selector fails its assertion and selects nothing,
refuting the unconditional "if N ≥ 2 packages are drained it returns
(chosen, N, k)". -/
theorem c1_counterexample :
    2 ≤ channelTwoEah.buf.length
  ∧ channelTwoEah.connected = true
  ∧ channelTwoEah.capacity = none
  ∧ (get_next_accounts_package channelTwoEah).1 = .panicked (.eahAssertion 2)
  ∧ ((get_next_accounts_package channelTwoEah).1).isSelected = false :=
  ⟨by decide, rfl, rfl, rfl, rfl⟩

/-- C2: whenever the selector does select from a drained buffer of `N ≥ 2`
packages (top-two `z`, `y` under the comparator), the chosen package is the
priority-maximal `z` — except that when `z` is an `EpochAccountsHash` package
and `y` a `FullSnapshot` package with `y.slot < z.slot`, `y` is chosen and
the EAH package `z` is kept and re-enqueued rather than dropped. -/
theorem c2_priority_maximal (channel : Channel)
    (rest1 rest2 : List AccountsPackage) (z y : AccountsPackage)
    (hconn : channel.connected = true) (hcap : channel.capacity = none)
    (hlen : 2 ≤ channel.buf.length)
    (heah : countEahPackages channel.buf ≤ 1)
    (h1 : extractMaxBy cmp_accounts_packages_by_priority channel.buf =
      some (rest1, z))
    (h2 : extractMaxBy cmp_accounts_packages_by_priority rest1 = some (rest2, y)) :
    (∀ p ∈ channel.buf, cmp_accounts_packages_by_priority p z ≠ .gt)
  ∧ (∀ p ∈ rest1, cmp_accounts_packages_by_priority p y ≠ .gt)
  ∧ (if z.package_kind = AccountsPackageKind.epochAccountsHash
        ∧ y.package_kind = AccountsPackageKind.snapshot SnapshotKind.fullSnapshot
        ∧ y.slot < z.slot
     then ((get_next_accounts_package channel).1 =
             .selected y channel.buf.length
               (((rest2 ++ [z]).filter (fun p => decide (y.slot < p.slot))).length)
           ∧ z ∈ ((get_next_accounts_package channel).2).buf)
     else (get_next_accounts_package channel).1 =
             .selected z channel.buf.length
               (((rest2 ++ [y]).filter (fun p => decide (z.slot < p.slot))).length)) := by
  obtain ⟨p1, p2, rest, hbuf⟩ := exists_two_of_two_le_length channel.buf hlen
  have hsel := select_from_buffer_spec ⟨[], channel.capacity, channel.connected⟩
    (p1 :: p2 :: rest) rest1 rest2 z y hconn hcap
    (by rw [hbuf] at heah; exact heah) (by rw [hbuf] at h1; exact h1) h2
  have hget : get_next_accounts_package channel =
      select_from_buffer ⟨[], channel.capacity, channel.connected⟩
        (p1 :: p2 :: rest) := by
    unfold get_next_accounts_package
    rw [hbuf]
  refine ⟨extractMaxBy_max _ cmp_priority_irrefl cmp_priority_gt_trans _ _ _ h1,
          extractMaxBy_max _ cmp_priority_irrefl cmp_priority_gt_trans _ _ _ h2, ?_⟩
  by_cases hc : z.package_kind = AccountsPackageKind.epochAccountsHash
      ∧ y.package_kind = AccountsPackageKind.snapshot SnapshotKind.fullSnapshot
      ∧ y.slot < z.slot
  · rw [if_pos hc]
    have htb : tieBreak z y = true := (tieBreak_eq_true_iff z y).mpr hc
    constructor
    · rw [hget, hsel, hbuf]
      simp [selChosen, selSurvivors, htb]
    · rw [hget, hsel]
      simp [selChosen, selSurvivors, htb, List.mem_filter, hc.2.2]
  · rw [if_neg hc]
    have htb : tieBreak z y = false := by
      cases h' : tieBreak z y
      · rfl
      · exact absurd ((tieBreak_eq_true_iff z y).mp h') hc
    rw [hget, hsel, hbuf]
    simp [selChosen, selSurvivors, htb]

/-- The C2 witness channel: a full snapshot at slot `100` and an EAH package
at slot `200` (the tie-break does not fire since `100 < 200` fails for the
would-be-dropped direction — here `y.slot < z.slot` holds, so `y` is chosen). -/
def channelW2 : Channel :=
  ⟨[basePackage (.snapshot .fullSnapshot) 100, basePackage .epochAccountsHash 200],
   none, true⟩

/-- Witness for C2 at a concrete channel exercising the tie-break branch. -/
theorem c2_priority_maximal_witness :
    (∀ p ∈ channelW2.buf,
       cmp_accounts_packages_by_priority p (basePackage .epochAccountsHash 200) ≠ .gt)
  ∧ (∀ p ∈ [basePackage (.snapshot .fullSnapshot) 100],
       cmp_accounts_packages_by_priority p
         (basePackage (.snapshot .fullSnapshot) 100) ≠ .gt)
  ∧ (if (basePackage .epochAccountsHash 200).package_kind =
          AccountsPackageKind.epochAccountsHash
        ∧ (basePackage (.snapshot .fullSnapshot) 100).package_kind =
            AccountsPackageKind.snapshot SnapshotKind.fullSnapshot
        ∧ (basePackage (.snapshot .fullSnapshot) 100).slot <
            (basePackage .epochAccountsHash 200).slot
     then ((get_next_accounts_package channelW2).1 =
             .selected (basePackage (.snapshot .fullSnapshot) 100)
               channelW2.buf.length
               ((([] ++ [basePackage .epochAccountsHash 200]).filter
                  (fun (p : AccountsPackage) =>
                    decide ((basePackage (.snapshot .fullSnapshot) 100).slot
                      < p.slot))).length)
           ∧ basePackage .epochAccountsHash 200 ∈
               ((get_next_accounts_package channelW2).2).buf)
     else (get_next_accounts_package channelW2).1 =
             .selected (basePackage .epochAccountsHash 200)
               channelW2.buf.length
               ((([] ++ [basePackage (.snapshot .fullSnapshot) 100]).filter
                  (fun (p : AccountsPackage) =>
                    decide ((basePackage .epochAccountsHash 200).slot
                      < p.slot))).length)) :=
  c2_priority_maximal channelW2 [basePackage (.snapshot .fullSnapshot) 100] []
    (basePackage .epochAccountsHash 200) (basePackage (.snapshot .fullSnapshot) 100)
    rfl rfl (by decide) (by decide) rfl rfl

/-- The two packages of the C9 scenarios. -/
def packageFssW : AccountsPackage := basePackage (.snapshot .fullSnapshot) 10

/-- An incremental-snapshot package at slot `20`, base slot `10`. -/
def packageIssW : AccountsPackage :=
  basePackage (.snapshot (.incrementalSnapshot 10)) 20

/-- A disconnected channel holding the two C9 packages. -/
def channelDisc : Channel := ⟨[packageFssW, packageIssW], none, false⟩

/-- A bounded channel (capacity `0`) holding the two C9 packages. -/
def channelBounded : Channel := ⟨[packageFssW, packageIssW], some 0, true⟩

/-- C9 (amended): if re-enqueueing a surviving package fails (the transport
is disconnected or its bounded capacity is hit), the failure is fatal — but
via the `expect("re-enqueue accounts package")` panic, which aborts the
worker thread; it is not reported by returning `Err` (the loop iteration's
fatal-`Err` branch is not taken). -/
theorem c9_reenqueue_failure_fatal (channel : Channel)
    (pending : List SnapshotPackage) (snapshot_config : SnapshotConfig)
    (rest1 rest2 : List AccountsPackage) (z y : AccountsPackage)
    (hconn : channel.connected = false)
    (hlen : 2 ≤ channel.buf.length)
    (heah : countEahPackages channel.buf ≤ 1)
    (h1 : extractMaxBy cmp_accounts_packages_by_priority channel.buf =
      some (rest1, z))
    (h2 : extractMaxBy cmp_accounts_packages_by_priority rest1 = some (rest2, y))
    (hsurv : ((selSurvivors rest2 z y).filter
        (fun p => decide ((selChosen z y).slot < p.slot))).length ≠ 0) :
    (get_next_accounts_package channel).1 = .panicked .reenqueueFailed
  ∧ (verifier_loop_step ⟨channel, pending, false⟩ snapshot_config).1 =
      .panicked .reenqueueFailed
  ∧ ((verifier_loop_step ⟨channel, pending, false⟩ snapshot_config).1).isFatalError
      = false := by
  obtain ⟨p1, p2, rest, hbuf⟩ := exists_two_of_two_le_length channel.buf hlen
  have hre : reenqueueAll ⟨[], channel.capacity, channel.connected⟩
      (selChosen z y).slot (selSurvivors rest2 z y) = none :=
    reenqueueAll_disconnected _ _ _ hconn hsurv
  have hfail := select_from_buffer_fail ⟨[], channel.capacity, channel.connected⟩
    (p1 :: p2 :: rest) rest1 rest2 z y (by rw [hbuf] at heah; exact heah)
    (by rw [hbuf] at h1; exact h1) h2 hre
  have hget0 : get_next_accounts_package channel =
      select_from_buffer ⟨[], channel.capacity, channel.connected⟩
        (p1 :: p2 :: rest) := by
    unfold get_next_accounts_package
    rw [hbuf]
  have hget := hget0.trans hfail
  refine ⟨by rw [hget], ?_, ?_⟩
  · unfold verifier_loop_step
    rw [if_neg (by simp : ¬ ((⟨channel, pending, false⟩ : LoopState).exit = true))]
    rw [hget]
  · unfold verifier_loop_step
    rw [if_neg (by simp : ¬ ((⟨channel, pending, false⟩ : LoopState).exit = true))]
    rw [hget]
    rfl

/-- Witness for the amended C9 at the concrete disconnected channel. -/
theorem c9_reenqueue_failure_fatal_witness :
    (get_next_accounts_package channelDisc).1 = .panicked .reenqueueFailed
  ∧ (verifier_loop_step ⟨channelDisc, [], false⟩ configZero).1 =
      .panicked .reenqueueFailed
  ∧ ((verifier_loop_step ⟨channelDisc, [], false⟩ configZero).1).isFatalError
      = false :=
  c9_reenqueue_failure_fatal channelDisc [] configZero [packageIssW] []
    packageFssW packageIssW rfl (by decide) (by decide) rfl rfl (by decide)

/-- Counterexample to C9 as stated: at a concrete channel whose bounded
capacity is hit, the re-enqueue failure surfaces as the selector panic — the
loop iteration ends in a panic and its fatal-`Err` branch is not taken, so
the failure is not "reported by returning Err from the worker loop". -/
theorem c9_counterexample :
    (get_next_accounts_package channelBounded).1 = .panicked .reenqueueFailed
  ∧ (verifier_loop_step ⟨channelBounded, [], false⟩ configZero).1 =
      .panicked .reenqueueFailed
  ∧ ((verifier_loop_step ⟨channelBounded, [], false⟩ configZero).1).isFatalError
      = false :=
  ⟨rfl, rfl, rfl⟩

end Agave
